import Mathlib

/-!
Verification of the ausjdocs-analysis scrapers.

Shallow embedding of the two Python source files:

* `src/comment_scraper.py` — `CommentScraper.get_post_comments` and the
  recursive `CommentScraper._extract_comments`;
* `src/reddit_scraper.py` — `RedditScraper.fetch_with_retry`,
  `RedditScraper.search_subreddit`, `RedditScraper.extract_post_data`,
  the explicit-stack `RedditScraper._extract_comments`, and the
  deduplication loop of `main`.

Decoded JSON comment trees are modelled by the mutual inductive family
`CNode` / `Replies` / `CList` below; fetch responses are modelled as the
values the parsed-JSON layer hands to the code (network effects are
represented by the sequence of responses an execution trace observes).
-/

namespace Ausjdocs

open List

/-! ## The comment-tree data model

A child element of a `children` array in the thread JSON is an object
`{kind, data}`; `data` carries `author`, `body`, `score`, `created_utc`,
`is_submitter`, and optionally `replies`, which is either absent / a falsy
value (no nested replies: `Replies.noreplies`) or a dict
`{data: {children: [...]}}` (`Replies.somereplies` with that children list).
String fields read with `.get(key, default)` in Python are modelled as the
already-defaulted total value, which is observationally identical for the
properties below. -/

mutual

inductive CNode : Type where
  | mk (kind author body : String) (score created_utc : Int)
       (is_submitter : Bool) (replies : Replies) : CNode

inductive Replies : Type where
  | noreplies : Replies
  | somereplies (children : CList) : Replies

inductive CList : Type where
  | nil : CList
  | cons (hd : CNode) (tl : CList) : CList

end

/-! ## comment_scraper._extract_comments (recursive variant)

`CommentScraper._extract_comments(comment_data, depth=0)` walks the list,
keeps only `kind == 't1'` items whose author is not `'[deleted]'` or
`'AutoModerator'`, builds a nested comment object (with an inner `replies`
list obtained by recursing at `depth + 1`), and returns the list of
objects.  The output is the mutual family `CSOut` / `CSList`. -/

mutual

inductive CSOut : Type where
  | mk (author body : String) (score created_utc : Int)
       (depth : Nat) (is_submitter : Bool) (replies : CSList) : CSOut

inductive CSList : Type where
  | nil : CSList
  | cons (hd : CSOut) (tl : CSList) : CSList

end

/-- Exact exclusion test of `comment_scraper.py` line 67:
`comment.get('author') in ['[deleted]', 'AutoModerator']`. -/
def excludedAuthor (a : String) : Bool :=
  a = "[deleted]" || a = "AutoModerator"

mutual

/-- The loop of `CommentScraper._extract_comments(comment_data, depth)`. -/
def extractCS : CList → Nat → CSList
  | .nil, _ => .nil
  | .cons n rest, depth => extractCSNode n depth (extractCS rest depth)

/-- One iteration of the `for item in comment_data` loop: given the result
for the remaining items, either prepend this item's comment object or skip
it (non-`t1` kind, or excluded author). -/
def extractCSNode : CNode → Nat → CSList → CSList
  | .mk kind author body score created is_sub reps, depth, tail =>
    if kind = "t1" then
      if excludedAuthor author then tail
      else .cons (.mk author body score created depth is_sub
                    (extractCSReplies reps depth)) tail
    else tail

/-- The `comment_obj['replies']` computation: recurse into a present dict
`replies` at `depth + 1`, otherwise the initialized empty list. -/
def extractCSReplies : Replies → Nat → CSList
  | .noreplies, _ => .nil
  | .somereplies l, depth => extractCS l (depth + 1)

end

/-! ## reddit_scraper._extract_comments (explicit-stack variant)

`RedditScraper._extract_comments(comment_data)` keeps a stack of
`(children_list, depth)` pairs, pops from the end, iterates the popped
list appending a flat record for every `t1` item and pushing that item's
reply children (if a dict) at `depth + 1`.  There is no author
exclusion in this variant, and the records are flat (no `is_submitter`,
no nested `replies`). -/

/-- A flat record appended by `reddit_scraper._extract_comments`. -/
structure RSRec where
  author : String
  body : String
  score : Int
  created_utc : Int
  depth : Nat
deriving DecidableEq, Repr

/-- The body of the `for item in data` loop for one popped `(data, depth)`
pair: the records appended (in order) and the `(children, depth+1)` pairs
pushed (in push order). -/
def processList : CList → Nat → List RSRec × List (CList × Nat)
  | .nil, _ => ([], [])
  | .cons (.mk kind author body score created _ reps) rest, depth =>
    if kind = "t1" then
      match reps with
      | .somereplies l =>
        (⟨author, body, score, created, depth⟩ :: (processList rest depth).1,
         (l, depth + 1) :: (processList rest depth).2)
      | .noreplies =>
        (⟨author, body, score, created, depth⟩ :: (processList rest depth).1,
         (processList rest depth).2)
    else processList rest depth

mutual

/-- Number of nodes in a tree (used to bound the stack loop's fuel). -/
def csizeN : CNode → Nat
  | .mk _ _ _ _ _ _ reps => 1 + csizeR reps

def csizeR : Replies → Nat
  | .noreplies => 0
  | .somereplies l => csizeL l

def csizeL : CList → Nat
  | .nil => 0
  | .cons n rest => csizeN n + csizeL rest

end

/-- Total node count held on the stack. -/
def stackWeight (st : List (CList × Nat)) : Nat :=
  (st.map (fun p => csizeL p.1)).sum

/-- The `while stack:` loop.  The Lean stack keeps its top at the head, so
Python's `stack.pop()` is the head and the loop's sequence of
`stack.append` calls prepends the reversed push list.  The loop
terminates because every iteration strictly decreases
`stackWeight st + st.length` (popping an entry costs one stack slot and
the pushed reply lists together hold strictly fewer nodes than the popped
list when it is nonempty); `runStack` runs it on fuel at least that
measure, which `extractRS` supplies. -/
def runStack : Nat → List (CList × Nat) → List RSRec
  | 0, _ => []
  | _ + 1, [] => []
  | fuel + 1, (l, depth) :: rest =>
    (processList l depth).1 ++
      runStack fuel ((processList l depth).2.reverse ++ rest)

/-- Model of `RedditScraper._extract_comments(comment_data)`: run the stack loop
from the initial stack `[(comment_data, 0)]` with sufficient fuel. -/
def extractRS (comment_data : CList) : List RSRec :=
  runStack (csizeL comment_data + 1) [(comment_data, 0)]

/-! ## Observation and reference definitions

`flatCS` reads the nested output of the recursive variant in its nesting
order (node, then its reply subtree, then later siblings); `FlatCS` is
one record of that reading.  `preorderFlatCS` and `preorderRS` are
reference definitions written from the spec's words ("parent immediately
followed by its own subtree, before any later sibling, depth = nesting
level"), with and without the recursive variant's author exclusion. -/

/-- One record of the flat reading of the recursive variant's output. -/
structure FlatCS where
  author : String
  body : String
  score : Int
  created_utc : Int
  depth : Nat
  is_submitter : Bool
deriving DecidableEq, Repr

mutual

/-- Flat reading of a nested output list: each object, then its replies
subtree, then the later siblings. -/
def flatCS : CSList → List FlatCS
  | .nil => []
  | .cons o rest => flatCSNode o ++ flatCS rest

def flatCSNode : CSOut → List FlatCS
  | .mk a b s c d sub reps => ⟨a, b, s, c, d, sub⟩ :: flatCS reps

end

/-- Projection onto the five fields shared by the two variants' records. -/
def FlatCS.toRS (r : FlatCS) : RSRec :=
  ⟨r.author, r.body, r.score, r.created_utc, r.depth⟩

mutual

/-- Spec reference: depth-first pre-order listing with the recursive
variant's filtering (only `t1` items, excluded authors dropped with their
whole subtrees), each node at its nesting level. -/
def preorderFlatCS : CList → Nat → List FlatCS
  | .nil, _ => []
  | .cons n rest, depth => preorderFlatCSNode n depth ++ preorderFlatCS rest depth

def preorderFlatCSNode : CNode → Nat → List FlatCS
  | .mk kind author body score created is_sub reps, depth =>
    if kind = "t1" then
      if excludedAuthor author then []
      else ⟨author, body, score, created, depth, is_sub⟩ ::
        preorderFlatCSReplies reps depth
    else []

def preorderFlatCSReplies : Replies → Nat → List FlatCS
  | .noreplies, _ => []
  | .somereplies l, depth => preorderFlatCS l (depth + 1)

end

mutual

/-- Spec reference: depth-first pre-order listing with the stack variant's
filtering (only `t1` items, no author exclusion), each node at its
nesting level. -/
def preorderRS : CList → Nat → List RSRec
  | .nil, _ => []
  | .cons n rest, depth => preorderRSNode n depth ++ preorderRS rest depth

def preorderRSNode : CNode → Nat → List RSRec
  | .mk kind author body score created _ reps, depth =>
    if kind = "t1" then
      ⟨author, body, score, created, depth⟩ :: preorderRSReplies reps depth
    else []

def preorderRSReplies : Replies → Nat → List RSRec
  | .noreplies, _ => []
  | .somereplies l, depth => preorderRS l (depth + 1)

end

mutual

/-- Spec reference ("their subtrees are dropped entirely along with them,
not hoisted"): remove every `t1` node with an excluded author together
with its whole reply subtree, keeping everything else in place. -/
def pruneExcluded : CList → CList
  | .nil => .nil
  | .cons (.mk kind author body score created is_sub reps) rest =>
    if kind = "t1" then
      if excludedAuthor author then pruneExcluded rest
      else .cons (.mk kind author body score created is_sub
                    (pruneExcludedReplies reps)) (pruneExcluded rest)
    else .cons (.mk kind author body score created is_sub
                  (pruneExcludedReplies reps)) (pruneExcluded rest)

def pruneExcludedReplies : Replies → Replies
  | .noreplies => .noreplies
  | .somereplies l => .somereplies (pruneExcluded l)

end

mutual

/-- No node anywhere in the tree has an excluded author. -/
def noExcludedL : CList → Bool
  | .nil => true
  | .cons n rest => noExcludedN n && noExcludedL rest

def noExcludedN : CNode → Bool
  | .mk _ author _ _ _ _ reps => !excludedAuthor author && noExcludedR reps

def noExcludedR : Replies → Bool
  | .noreplies => true
  | .somereplies l => noExcludedL l

end


/-! ## RedditScraper.fetch_with_retry

One attempt either raises a transport-level `RequestException` (connection
error, or `raise_for_status` on a non-2xx response), raises a
`JSONDecodeError`, or returns a decoded payload.  The sequence of attempt
outcomes an execution would observe is modelled as a function from the
attempt index.  The loop `for attempt in range(retries)` retries on a
transport failure after a `time.sleep(2)`, breaks out on a decode
failure, returns the payload on success, and falls through to
`return None` otherwise; `None` is the only failure value the function
can return. -/

/-- Outcome of a single `requests.get` + `raise_for_status` + `.json()`. -/
inductive AttemptResult (α : Type) where
  | netFail : AttemptResult α
  | decodeFail : AttemptResult α
  | success (payload : α) : AttemptResult α

/-- What a call to `fetch_with_retry` did: the returned value, how many
attempts were made, and how many fixed 2-second `time.sleep(2)` delays
were taken between attempts. -/
structure FetchOutcome (α : Type) where
  result : Option α
  attempts : Nat
  sleeps : Nat
deriving DecidableEq, Repr

/-- The attempt loop from attempt index `i` with `remaining` loop
iterations left. -/
def fetchFrom (att : Nat → AttemptResult α) : Nat → Nat → FetchOutcome α
  | _, 0 => ⟨none, 0, 0⟩
  | i, remaining + 1 =>
    match att i with
    | .success p => ⟨some p, 1, 0⟩
    | .decodeFail => ⟨none, 1, 0⟩
    | .netFail =>
      let o := fetchFrom att (i + 1) remaining
      ⟨o.result, o.attempts + 1, o.sleeps + 1⟩

/-- Model of `RedditScraper.fetch_with_retry(url, params, retries=3)`, with the
network abstracted to the per-attempt outcomes `att`. -/
def fetch_with_retry (att : Nat → AttemptResult α) (retries : Nat := 3) :
    FetchOutcome α :=
  fetchFrom att 0 retries

/-! ## RedditScraper.extract_post_data

A raw post record (`child['data']`) with the fields the code reads; each
is optional, `post_data.get(key, default)` substitutes the default. -/

def BASE_URL : String := "https://old.reddit.com"

structure RawPost where
  title : Option String
  author : Option String
  score : Option Int
  num_comments : Option Int
  created_utc : Option Int
  selftext : Option String
  permalink : Option String
  id : Option String
  link_flair_text : Option String
deriving DecidableEq, Repr

/-- A value in the returned dict (string- or integer-valued fields). -/
inductive PVal where
  | s (v : String) : PVal
  | i (v : Int) : PVal
deriving DecidableEq, Repr

/-- Modelled from the spec: the "timestamp-to-date formatting" performed
by `datetime.fromtimestamp(...).strftime('%Y-%m-%d %H:%M:%S')`, which is
library code outside this repository; its exact output text is irrelevant
to every claim, so it is modelled as a plain rendering of the
timestamp. -/
def formatTimestamp (t : Int) : String := toString t

/-- Model of `RedditScraper.extract_post_data(post_data)`: the returned dict as a
key-value list in the literal's key order. -/
def extract_post_data (p : RawPost) : List (String × PVal) :=
  [("title", .s (p.title.getD "")),
   ("author", .s (p.author.getD "")),
   ("score", .i (p.score.getD 0)),
   ("num_comments", .i (p.num_comments.getD 0)),
   ("created_utc", .i (p.created_utc.getD 0)),
   ("created_date", .s (formatTimestamp (p.created_utc.getD 0))),
   ("selftext", .s (p.selftext.getD "")),
   ("url", .s (BASE_URL ++ p.permalink.getD "")),
   ("id", .s (p.id.getD "")),
   ("link_flair_text", .s (p.link_flair_text.getD ""))]

/-- A post record as accumulated by `search_subreddit`. -/
abbrev Post := List (String × PVal)

/-- The lookup `post['id']` on an extracted record. -/
def postId (p : Post) : Option PVal := p.lookup "id"

/-! ## RedditScraper.search_subreddit

One decoded search response `{data: {children: [...], after: ...}}`.
`after` is `none` when the key is absent or null (`data['data'].get('after')`
returns `None`); an empty string is a present-but-falsy token. -/

structure SearchPage where
  children : List RawPost
  after : Option String
deriving DecidableEq, Repr

/-- Whether `if not after: break` lets the loop continue: the token is
present and truthy. -/
def truthyAfter : Option String → Bool
  | none => false
  | some a => a ≠ ""

/-- The `while True` page loop.  `responses` is the sequence of values
`fetch_with_retry` hands back for the successive requests of this
invocation (`none` models a fetch that failed after retries; requesting
when no response remains also models a failed fetch).  Returns the
accumulated posts (before truncation) and the number of requests made. -/
def collectPages : List (Option SearchPage) → List Post × Nat
  | [] => ([], 0)
  | r :: rest =>
    match r with
    | none => ([], 1)
    | some pg =>
      if pg.children = [] then ([], 1)
      else
        if truthyAfter pg.after then
          ((pg.children.map extract_post_data) ++ (collectPages rest).1,
           (collectPages rest).2 + 1)
        else ((pg.children.map extract_post_data), 1)

/-- Model of `RedditScraper.search_subreddit(subreddit, query, limit)`: run the
page loop, then `return posts[:limit]`. -/
def search_subreddit (responses : List (Option SearchPage)) (limit : Nat) :
    List Post :=
  ((collectPages responses).1).take limit

/-- Spec reference: the loop keeps requesting exactly while a response is
a successful page with nonempty `children` and a truthy `after` token. -/
def pageContinues : Option SearchPage → Bool
  | none => false
  | some pg => !(pg.children = [] : Bool) && truthyAfter pg.after

/-- Spec reference: number of requests the loop makes — all continuing
pages plus the one terminating response, when one exists. -/
def stopCount (responses : List (Option SearchPage)) : Nat :=
  min ((responses.takeWhile pageContinues).length + 1) responses.length

/-- Spec reference: every post of every consumed successful page, in
ingestion order. -/
def ingested (responses : List (Option SearchPage)) : List Post :=
  (((responses.take (stopCount responses)).filterMap id).map
    (fun pg => pg.children.map extract_post_data)).flatten

/-! ## The dedup loop of reddit_scraper.main

`main` merges the results of the per-term searches into `all_posts`,
skipping any post whose `'id'` value is already in the `seen_ids` set.
The set is modelled as the list of values added so far (membership is all
the code uses). -/

/-- The `for post in posts:` body folded over one search's results. -/
def dedupBatch : List Post → List Post × List (Option PVal) →
    List Post × List (Option PVal)
  | [], acc => acc
  | p :: rest, (all_posts, seen_ids) =>
    if postId p ∈ seen_ids then dedupBatch rest (all_posts, seen_ids)
    else dedupBatch rest (all_posts ++ [p], seen_ids ++ [postId p])

/-- The `for term in search_terms:` loop of `main`, given the
per-term search results. -/
def mainMerge (results : List (List Post)) : List Post × List (Option PVal) :=
  results.foldl (fun acc batch => dedupBatch batch acc) ([], [])

/-! ## CommentScraper.get_post_comments

The decoded thread response is a JSON array; the code checks
`len(data) < 2`, reads `data[0]['data']['children'][0]['data']` as the
post info (direct indexing: a missing `title` / `score` / `num_comments`
key or an empty `children` list raises, and the `except` clause turns any
exception into a `None` return), and hands `data[1]['data']['children']`
to `_extract_comments`.  Each array element is modelled by the two
projections of its `children` the code can take. -/

/-- The object `children[0]['data']` of the post part, with the directly-indexed
fields optional (absent key = `KeyError`). -/
structure RawPostInfo where
  title : Option String
  selftext : Option String
  score : Option Int
  num_comments : Option Int
deriving DecidableEq, Repr

/-- One element of the decoded thread array: its `data.children` read as
post entries and read as comment entries.  (In the JSON both are the same
array of `{kind, data}` objects; the code reads element 0 through the
first projection and element 1 through the second.) -/
structure ThreadPart where
  postChildren : List RawPostInfo
  commentChildren : CList

/-- The `post_info` dict built from the post part. -/
structure PostInfo where
  title : String
  selftext : String
  score : Int
  num_comments : Int
deriving DecidableEq, Repr

/-- A value of the dict `get_post_comments` returns on success. -/
inductive GPCVal where
  | vid (s : String) : GPCVal
  | vinfo (i : PostInfo) : GPCVal
  | vcomments (c : CSList) : GPCVal

/-- The three result shapes of `get_post_comments`: `None` (any exception
during fetch or extraction), the bare empty list (`len(data) < 2`), or
the result dict. -/
inductive GPCResult where
  | failure : GPCResult
  | emptyList : GPCResult
  | dict (fields : List (String × GPCVal)) : GPCResult

/-- Model of `CommentScraper.get_post_comments(post_id)`, with the network
abstracted to the decoded response `resp` (`none` models an exception
raised by `requests.get`, `raise_for_status` or `.json()`). -/
def get_post_comments (post_id : String) (resp : Option (List ThreadPart)) :
    GPCResult :=
  match resp with
  | none => .failure
  | some data =>
    if data.length < 2 then .emptyList
    else
      match data with
      | p0 :: p1 :: _ =>
        match p0.postChildren with
        | [] => .failure
        | c :: _ =>
          match c.title, c.score, c.num_comments with
          | some t, some s, some n =>
            .dict [("post_id", .vid post_id),
                   ("post_info", .vinfo ⟨t, c.selftext.getD "", s, n⟩),
                   ("comments", .vcomments (extractCS p1.commentChildren 0))]
          | _, _, _ => .failure
      | _ => .failure

/-! ## Concrete example inputs used by the witnesses and counterexamples -/

/-- A childless `t1` comment node by the given author. -/
def exLeaf (a : String) : CNode := .mk "t1" a "" 0 0 false .noreplies

/-- A `t1` comment node with a nested replies dict. -/
def exParent (a : String) (ch : CList) : CNode :=
  .mk "t1" a "" 0 0 false (.somereplies ch)

/-- Two root siblings A and B, each with one reply (A1 resp. B1). -/
def tSib : CList :=
  .cons (exParent "A" (.cons (exLeaf "A1") .nil))
    (.cons (exParent "B" (.cons (exLeaf "B1") .nil)) .nil)

/-- A single root comment by the deletion marker. -/
def tDel : CList := .cons (exLeaf "[deleted]") .nil

/-- A single root comment by the bot account. -/
def tAuto : CList := .cons (exLeaf "AutoModerator") .nil

/-- One root comment by alice with one reply by bob (no excluded authors). -/
def tAlice : CList := .cons (exParent "alice" (.cons (exLeaf "bob") .nil)) .nil

/-- The flat record alice's comment yields at depth 0. -/
def aliceFlat : FlatCS := ⟨"alice", "", 0, 0, 0, false⟩

/-- A raw post record carrying only an id. -/
def mkRaw (i : String) : RawPost :=
  ⟨none, none, none, none, none, none, none, some i, none⟩

/-- One last page whose two posts share the id "a". -/
def rsDup : List (Option SearchPage) := [some ⟨[mkRaw "a", mkRaw "a"], none⟩]

/-- Two pages of one post each, linked by an `after` token. -/
def rsTwo : List (Option SearchPage) :=
  [some ⟨[mkRaw "a"], some "t"⟩, some ⟨[mkRaw "b"], none⟩]

/-- Two pages of 100 posts each, the first with an `after` token. -/
def rsHundreds : List (Option SearchPage) :=
  [some ⟨List.replicate 100 (mkRaw "p"), some "t"⟩,
   some ⟨List.replicate 100 (mkRaw "q"), none⟩]

/-- Attempt outcomes that fail at transport level twice, then succeed. -/
def attTwoFail : Nat → AttemptResult Nat :=
  fun i => if i < 2 then .netFail else .success 5

/-- Attempt outcomes that always fail at transport level. -/
def attAllFail : Nat → AttemptResult Nat := fun _ => .netFail

/-- Attempt outcomes whose first response body is undecodable. -/
def attDecode : Nat → AttemptResult Nat := fun _ => .decodeFail

/-- A thread response part 0 with one well-formed post child. -/
def partPost : ThreadPart := ⟨[⟨some "T", some "text", some 3, some 1⟩], .nil⟩

/-- A thread response part 1 carrying the alice/bob comment tree. -/
def partComments : ThreadPart := ⟨[], tAlice⟩

/-- A decoded two-part thread response. -/
def respOk : Option (List ThreadPart) := some [partPost, partComments]

/-! ## Lemmas on the two tree flatteners -/

mutual

/-- The flat reading of the recursive variant's nested output is exactly
the pre-order listing. -/
theorem flat_extractCS : ∀ (l : CList) (d : Nat),
    flatCS (extractCS l d) = preorderFlatCS l d
  | .nil, _ => rfl
  | .cons n rest, d => by
    rw [extractCS, preorderFlatCS, flat_extractCSNode n d (extractCS rest d),
      flat_extractCS rest d]

theorem flat_extractCSNode : ∀ (n : CNode) (d : Nat) (tail : CSList),
    flatCS (extractCSNode n d tail) = preorderFlatCSNode n d ++ flatCS tail
  | .mk kind author body score created sub reps, d, tail => by
    rw [extractCSNode, preorderFlatCSNode]
    by_cases hk : kind = "t1"
    · simp only [if_pos hk]
      by_cases ha : excludedAuthor author
      · simp [ha]
      · simp only [ha, Bool.false_eq_true, if_false, flatCS, flatCSNode,
          List.cons_append]
        rw [flat_extractCSReplies reps d]
    · simp [hk]

theorem flat_extractCSReplies : ∀ (r : Replies) (d : Nat),
    flatCS (extractCSReplies r d) = preorderFlatCSReplies r d
  | .noreplies, _ => rfl
  | .somereplies l, d => flat_extractCS l (d + 1)

end

mutual

/-- No record of the pre-order listing (with exclusion) has an excluded
author. -/
theorem preorderFlatCS_not_excluded : ∀ (l : CList) (d : Nat) (r : FlatCS),
    r ∈ preorderFlatCS l d → excludedAuthor r.author = false
  | .nil, _, r => by
    rw [preorderFlatCS]
    intro h
    exact absurd h (List.not_mem_nil r)
  | .cons n rest, d, r => by
    rw [preorderFlatCS, List.mem_append]
    rintro (h | h)
    · exact preorderFlatCSNode_not_excluded n d r h
    · exact preorderFlatCS_not_excluded rest d r h

theorem preorderFlatCSNode_not_excluded : ∀ (n : CNode) (d : Nat) (r : FlatCS),
    r ∈ preorderFlatCSNode n d → excludedAuthor r.author = false
  | .mk kind author body score created sub reps, d, r => by
    rw [preorderFlatCSNode]
    by_cases hk : kind = "t1"
    · simp only [if_pos hk]
      by_cases ha : excludedAuthor author
      · simp [ha]
      · simp only [ha, Bool.false_eq_true, if_false, List.mem_cons]
        rintro (rfl | h)
        · simpa using ha
        · exact preorderFlatCSReplies_not_excluded reps d r h
    · simp [hk]

theorem preorderFlatCSReplies_not_excluded : ∀ (rp : Replies) (d : Nat) (r : FlatCS),
    r ∈ preorderFlatCSReplies rp d → excludedAuthor r.author = false
  | .noreplies, _, r => by
    rw [preorderFlatCSReplies]
    intro h
    exact absurd h (List.not_mem_nil r)
  | .somereplies l, d, r => preorderFlatCS_not_excluded l (d + 1) r

end

mutual

/-- Pruning excluded subtrees first does not change the recursive
variant's output: excluded nodes and their descendants never contribute. -/
theorem extractCS_prune : ∀ (l : CList) (d : Nat),
    extractCS (pruneExcluded l) d = extractCS l d
  | .nil, _ => rfl
  | .cons (.mk kind author body score created sub reps) rest, d => by
    rw [pruneExcluded]
    by_cases hk : kind = "t1"
    · simp only [if_pos hk]
      by_cases ha : excludedAuthor author
      · simp only [ha, if_true, extractCS_prune rest d]
        rw [extractCS, extractCSNode]
        simp [hk, ha]
      · simp only [ha, Bool.false_eq_true, if_false]
        rw [extractCS, extractCS, extractCSNode, extractCSNode,
          extractCS_prune rest d, extractCS_pruneReplies reps d]
    · simp only [hk, if_false]
      rw [extractCS, extractCS, extractCSNode, extractCSNode,
        extractCS_prune rest d]
      simp [hk]

theorem extractCS_pruneReplies : ∀ (rp : Replies) (d : Nat),
    extractCSReplies (pruneExcludedReplies rp) d = extractCSReplies rp d
  | .noreplies, _ => rfl
  | .somereplies l, d => extractCS_prune l (d + 1)

end

mutual

/-- On a tree with no excluded authors, the two pre-order listings agree
up to the projection onto the shared fields. -/
theorem preorderFlatCS_toRS : ∀ (l : CList) (d : Nat),
    noExcludedL l = true → (preorderFlatCS l d).map FlatCS.toRS = preorderRS l d
  | .nil, _, _ => rfl
  | .cons n rest, d, h => by
    rw [noExcludedL, Bool.and_eq_true] at h
    rw [preorderFlatCS, preorderRS, List.map_append,
      preorderFlatCSNode_toRS n d h.1, preorderFlatCS_toRS rest d h.2]

theorem preorderFlatCSNode_toRS : ∀ (n : CNode) (d : Nat),
    noExcludedN n = true → (preorderFlatCSNode n d).map FlatCS.toRS = preorderRSNode n d
  | .mk kind author body score created sub reps, d, h => by
    rw [preorderFlatCSNode, preorderRSNode]
    simp only [noExcludedN, Bool.and_eq_true, Bool.not_eq_true'] at h
    by_cases hk : kind = "t1"
    · simp only [if_pos hk, h.1, Bool.false_eq_true, if_false, List.map_cons]
      rw [preorderFlatCSReplies_toRS reps d h.2]
      rfl
    · simp [hk]

theorem preorderFlatCSReplies_toRS : ∀ (rp : Replies) (d : Nat),
    noExcludedR rp = true →
      (preorderFlatCSReplies rp d).map FlatCS.toRS = preorderRSReplies rp d
  | .noreplies, _, _ => rfl
  | .somereplies l, d, h => preorderFlatCS_toRS l (d + 1) (by simpa [noExcludedR] using h)

end

/-! ## Lemmas on the explicit-stack loop -/

theorem stackWeight_append (a b : List (CList × Nat)) :
    stackWeight (a ++ b) = stackWeight a + stackWeight b := by
  simp [stackWeight]

theorem stackWeight_reverse (a : List (CList × Nat)) :
    stackWeight a.reverse = stackWeight a := by
  simp [stackWeight, List.sum_reverse]

/-- The reply lists pushed while processing one popped list together hold
strictly fewer nodes than the popped list held (each pushed slot also
costs one node of the popped list). -/
theorem processList_weight : ∀ (l : CList) (d : Nat),
    stackWeight (processList l d).2 + (processList l d).2.length ≤ csizeL l
  | .nil, _ => le_refl 0
  | .cons (.mk kind author body score created sub reps) rest, d => by
    have ih := processList_weight rest d
    simp only [processList, csizeL, csizeN]
    by_cases hk : kind = "t1"
    · cases reps with
      | somereplies l' =>
        simp only [if_pos hk, stackWeight, List.map_cons, List.sum_cons,
          List.length_cons, csizeR]
        have : stackWeight (processList rest d).2 +
            (processList rest d).2.length ≤ csizeL rest := ih
        simp only [stackWeight] at this
        omega
      | noreplies =>
        simp only [if_pos hk, csizeR]
        omega
    · simp only [hk, if_false]
      omega

/-- Pre-order of one list, up to permutation: the records the loop body
emits for it, together with the pre-orders of the reply lists it pushes. -/
theorem preorderRS_processList : ∀ (l : CList) (d : Nat),
    preorderRS l d ~ (processList l d).1 ++
      ((processList l d).2.map (fun p => preorderRS p.1 p.2)).flatten
  | .nil, _ => by simp [preorderRS, processList]
  | .cons (.mk kind author body score created sub reps) rest, d => by
    have ih := preorderRS_processList rest d
    simp only [preorderRS, processList, preorderRSNode]
    by_cases hk : kind = "t1"
    · cases reps with
      | somereplies l' =>
        simp only [if_pos hk, preorderRSReplies, List.map_cons,
          List.flatten_cons, List.cons_append]
        refine List.Perm.cons _ ?_
        calc preorderRS l' (d + 1) ++ preorderRS rest d
            ~ preorderRS l' (d + 1) ++ ((processList rest d).1 ++
                ((processList rest d).2.map (fun p => preorderRS p.1 p.2)).flatten) :=
              List.Perm.append_left _ ih
          _ ~ (processList rest d).1 ++ (preorderRS l' (d + 1) ++
                ((processList rest d).2.map (fun p => preorderRS p.1 p.2)).flatten) := by
              rw [← List.append_assoc, ← List.append_assoc]
              exact List.Perm.append_right _ List.perm_append_comm
      | noreplies =>
        simp only [if_pos hk, preorderRSReplies, List.nil_append, List.cons_append]
        exact List.Perm.cons _ ih
    · simp only [hk, if_false, List.nil_append]
      exact ih

/-- Running the stack loop with sufficient fuel yields, up to permutation,
the concatenated pre-orders of the stacked lists. -/
theorem runStack_perm : ∀ (fuel : Nat) (st : List (CList × Nat)),
    stackWeight st + st.length ≤ fuel →
    runStack fuel st ~ (st.map (fun p => preorderRS p.1 p.2)).flatten := by
  intro fuel
  induction fuel with
  | zero =>
    intro st h
    have : st = [] := List.length_eq_zero.mp (by omega)
    subst this
    simp [runStack]
  | succ f ih =>
    intro st h
    match st with
    | [] => simp [runStack]
    | (l, d) :: rest =>
      rw [runStack]
      have hw : stackWeight ((l, d) :: rest) = csizeL l + stackWeight rest := by
        simp [stackWeight]
      have hpl := processList_weight l d
      have hrec : stackWeight ((processList l d).2.reverse ++ rest) +
          ((processList l d).2.reverse ++ rest).length ≤ f := by
        rw [stackWeight_append, stackWeight_reverse, List.length_append,
          List.length_reverse]
        rw [hw, List.length_cons] at h
        omega
      have hperm := ih _ hrec
      calc (processList l d).1 ++ runStack f ((processList l d).2.reverse ++ rest)
          ~ (processList l d).1 ++
              (((processList l d).2.reverse ++ rest).map
                (fun p => preorderRS p.1 p.2)).flatten :=
            List.Perm.append_left _ hperm
        _ ~ (processList l d).1 ++
              (((processList l d).2.map (fun p => preorderRS p.1 p.2)).flatten ++
                (rest.map (fun p => preorderRS p.1 p.2)).flatten) := by
            rw [List.map_append, List.flatten_append, List.map_reverse]
            exact List.Perm.append_left _
              (List.Perm.append ((List.reverse_perm _).flatten) (List.Perm.refl _))
        _ ~ preorderRS l d ++ (rest.map (fun p => preorderRS p.1 p.2)).flatten := by
            rw [← List.append_assoc]
            exact List.Perm.append_right _ (preorderRS_processList l d).symm
        _ = (((l, d) :: rest).map (fun p => preorderRS p.1 p.2)).flatten := by
            rw [List.map_cons, List.flatten_cons]

/-- The stack variant emits exactly the pre-order records, but permuted. -/
theorem extractRS_perm (l : CList) : (extractRS l).Perm (preorderRS l 0) := by
  have h := runStack_perm (csizeL l + 1) [(l, 0)] (by simp [stackWeight])
  simpa [extractRS] using h

/-! ## Lemmas on the pagination loop -/

/-- The page loop consumes exactly the continuing pages plus one
terminating response, and accumulates the posts of every consumed page,
in order; the caller-supplied limit plays no role in it. -/
theorem collectPages_eq : ∀ (rs : List (Option SearchPage)),
    collectPages rs = (ingested rs, stopCount rs)
  | [] => by simp [collectPages, ingested, stopCount]
  | r :: rest => by
    match r with
    | none =>
      have hsc : stopCount (none :: rest) = 1 := by
        simp [stopCount, List.takeWhile_cons, pageContinues]
      have hin : ingested (none :: rest) = [] := by
        simp [ingested, hsc]
      simp [collectPages, hin, hsc]
    | some pg =>
      by_cases hch : pg.children = []
      · have hpc : pageContinues (some pg) = false := by
          simp [pageContinues, hch]
        have hsc : stopCount (some pg :: rest) = 1 := by
          simp [stopCount, List.takeWhile_cons, hpc]
        have hin : ingested (some pg :: rest) = [] := by
          simp [ingested, hsc, hch]
        simp [collectPages, hch, hin, hsc]
      · by_cases hta : truthyAfter pg.after
        · have hpc : pageContinues (some pg) = true := by
            simp [pageContinues, hch, hta]
          have hsc : stopCount (some pg :: rest) = stopCount rest + 1 := by
            simp only [stopCount, List.takeWhile_cons, hpc, if_true,
              List.length_cons, List.length]
            omega
          have hin : ingested (some pg :: rest) =
              pg.children.map extract_post_data ++ ingested rest := by
            simp [ingested, hsc]
          have ih := collectPages_eq rest
          simp [collectPages, hch, hta, hin, hsc, ih]
        · have hpc : pageContinues (some pg) = false := by
            simp [pageContinues, hta]
          have hsc : stopCount (some pg :: rest) = 1 := by
            simp [stopCount, List.takeWhile_cons, hpc]
          have hin : ingested (some pg :: rest) =
              pg.children.map extract_post_data := by
            simp [ingested, hsc]
          simp [collectPages, hch, hta, hin, hsc]

/-! ## Lemmas on the dedup loop of main -/

/-- The per-post loop preserves the invariant that `seen_ids` is exactly
the multiset of ids of `all_posts` and has no duplicates. -/
theorem dedupBatch_inv : ∀ (batch all_posts : List Post)
    (seen_ids : List (Option PVal)),
    seen_ids = all_posts.map postId → seen_ids.Nodup →
    (dedupBatch batch (all_posts, seen_ids)).2 =
      (dedupBatch batch (all_posts, seen_ids)).1.map postId ∧
    (dedupBatch batch (all_posts, seen_ids)).2.Nodup
  | [], _, _, h1, h2 => ⟨h1, h2⟩
  | p :: rest, all_posts, seen_ids, h1, h2 => by
    rw [dedupBatch]
    by_cases hm : postId p ∈ seen_ids
    · simp only [if_pos hm]
      exact dedupBatch_inv rest all_posts seen_ids h1 h2
    · simp only [if_neg hm]
      refine dedupBatch_inv rest (all_posts ++ [p]) (seen_ids ++ [postId p]) ?_ ?_
      · rw [h1, List.map_append, List.map_cons, List.map_nil]
      · rw [List.nodup_append]
        exact ⟨h2, List.nodup_singleton _, by simpa using hm⟩

/-- The per-term loop of `main` preserves the same invariant. -/
theorem mainMerge_inv : ∀ (results : List (List Post))
    (all_posts : List Post) (seen_ids : List (Option PVal)),
    seen_ids = all_posts.map postId → seen_ids.Nodup →
    (results.foldl (fun acc batch => dedupBatch batch acc)
      (all_posts, seen_ids)).2 =
      (results.foldl (fun acc batch => dedupBatch batch acc)
        (all_posts, seen_ids)).1.map postId ∧
    (results.foldl (fun acc batch => dedupBatch batch acc)
      (all_posts, seen_ids)).2.Nodup
  | [], _, _, h1, h2 => ⟨h1, h2⟩
  | batch :: rest, all_posts, seen_ids, h1, h2 => by
    rw [List.foldl_cons]
    have step := dedupBatch_inv batch all_posts seen_ids h1 h2
    exact mainMerge_inv rest (dedupBatch batch (all_posts, seen_ids)).1
      (dedupBatch batch (all_posts, seen_ids)).2 step.1 step.2

/-! ## Lemmas on the retry loop -/

theorem fetchFrom_success_step (att : Nat → AttemptResult α) (i n : Nat)
    (p : α) (h : att i = .success p) :
    fetchFrom att i (n + 1) = ⟨some p, 1, 0⟩ := by
  simp [fetchFrom, h]

theorem fetchFrom_decode_step (att : Nat → AttemptResult α) (i n : Nat)
    (h : att i = .decodeFail) :
    fetchFrom att i (n + 1) = ⟨none, 1, 0⟩ := by
  simp [fetchFrom, h]

theorem fetchFrom_net_step (att : Nat → AttemptResult α) (i n : Nat)
    (h : att i = .netFail) :
    fetchFrom att i (n + 1) =
      ⟨(fetchFrom att (i + 1) n).result, (fetchFrom att (i + 1) n).attempts + 1,
       (fetchFrom att (i + 1) n).sleeps + 1⟩ := by
  simp [fetchFrom, h]

theorem fetchFrom_attempts_le : ∀ (att : Nat → AttemptResult α) (i n : Nat),
    (fetchFrom att i n).attempts ≤ n
  | _, _, 0 => Nat.le_refl 0
  | att, i, n + 1 => by
    cases h : att i with
    | success p =>
      rw [fetchFrom_success_step att i n p h]
      exact Nat.succ_le_succ (Nat.zero_le n)
    | decodeFail =>
      rw [fetchFrom_decode_step att i n h]
      exact Nat.succ_le_succ (Nat.zero_le n)
    | netFail =>
      rw [fetchFrom_net_step att i n h]
      exact Nat.succ_le_succ (fetchFrom_attempts_le att (i + 1) n)

theorem fetchFrom_allnet (att : Nat → AttemptResult α)
    (h : ∀ j, att j = .netFail) : ∀ (n i : Nat), fetchFrom att i n = ⟨none, n, n⟩
  | 0, _ => rfl
  | n + 1, i => by
    rw [fetchFrom_net_step att i n (h i), fetchFrom_allnet att h n (i + 1)]

/-! ## The claims -/

/-- Claim C1, amended.  The recursive variant does emit its records in
depth-first pre-order with the depth field equal to the nesting level
(flat reading of its nested output equals the pre-order reference
listing); the explicit-stack variant emits exactly the pre-order records
with the same depth annotations, but only up to permutation — its
emission order is not pre-order (see the counterexample). -/
theorem claim_C1_amended :
    (∀ l : CList, flatCS (extractCS l 0) = preorderFlatCS l 0) ∧
    (∀ l : CList, (extractRS l).Perm (preorderRS l 0)) :=
  ⟨fun l => flat_extractCS l 0, extractRS_perm⟩

/-- Claim C1, counterexample to the stated claim: on two root siblings A
and B with one reply each, the stack variant emits A, B, B1, A1 — B
intervenes between A and A's reply subtree — while pre-order is
A, A1, B, B1. -/
theorem claim_C1_counterexample :
    (extractRS tSib).map RSRec.author = ["A", "B", "B1", "A1"] ∧
    (preorderRS tSib 0).map RSRec.author = ["A", "A1", "B", "B1"] ∧
    extractRS tSib ≠ preorderRS tSib 0 := by
  decide

/-- Claim C2, amended.  The two variants do not produce identical
observable output (the recursive variant excludes authors and emits
pre-order; the stack variant excludes nobody and emits a permuted
order); what does hold is that on trees containing no excluded author,
the records agree up to permutation after projecting the recursive
variant's records onto the five fields the stack variant also emits. -/
theorem claim_C2_amended (l : CList) (h : noExcludedL l = true) :
    ((flatCS (extractCS l 0)).map FlatCS.toRS).Perm (extractRS l) := by
  rw [flat_extractCS l 0, preorderFlatCS_toRS l 0 h]
  exact (extractRS_perm l).symm

/-- Witness for C2: the alice/bob tree has no excluded authors and the
two variants' records then agree up to permutation. -/
theorem claim_C2_witness :
    ((flatCS (extractCS tAlice 0)).map FlatCS.toRS).Perm (extractRS tAlice) :=
  claim_C2_amended tAlice (by decide)

/-- Claim C2, counterexample to the stated claim: on a single
AutoModerator comment the recursive variant emits no record while the
stack variant emits one, so the outputs are not identical. -/
theorem claim_C2_counterexample :
    flatCS (extractCS tAuto 0) = [] ∧ (extractRS tAuto).length = 1 := by
  decide

/-- Claim C3, amended.  The exclusion property holds for the recursive
variant only: no emitted record carries an excluded author, and pruning
every excluded node together with its whole subtree from the input first
does not change the output (the subtree is dropped, not hoisted).  The
stack variant performs no author exclusion at all (see the
counterexample). -/
theorem claim_C3_amended :
    (∀ (l : CList) (d : Nat) (r : FlatCS),
      r ∈ flatCS (extractCS l d) → excludedAuthor r.author = false) ∧
    (∀ (l : CList) (d : Nat), extractCS (pruneExcluded l) d = extractCS l d) := by
  constructor
  · intro l d r hr
    rw [flat_extractCS l d] at hr
    exact preorderFlatCS_not_excluded l d r hr
  · exact extractCS_prune

/-- Witness for C3: alice's record occurs in the recursive variant's
output for the alice/bob tree, and its author is not excluded. -/
theorem claim_C3_witness : excludedAuthor aliceFlat.author = false :=
  claim_C3_amended.1 tAlice 0 aliceFlat (by decide)

/-- Claim C3, counterexample to the stated claim: the stack variant
emits a record authored by the deletion marker. -/
theorem claim_C3_counterexample :
    "[deleted]" ∈ (extractRS tDel).map RSRec.author := by
  decide

/-- Claim C4, amended.  The pagination loop never compares the running
count against the caller-supplied limit: its page consumption
(`stopCount`, limit-free by construction) is all continuing pages plus
the one terminating response, and the limit acts only as truncation of
the accumulated posts at return time. -/
theorem claim_C4_amended (responses : List (Option SearchPage)) (limit : Nat) :
    search_subreddit responses limit = (ingested responses).take limit ∧
    (collectPages responses).2 = stopCount responses := by
  constructor
  · rw [search_subreddit, collectPages_eq]
  · rw [collectPages_eq]

/-- Claim C4, counterexample to the stated claim: with limit 1, the
first page alone already accumulates 1 post — at the limit — yet the
loop still requests a second page (2 requests in total). -/
theorem claim_C4_counterexample :
    ((collectPages (rsTwo.take 1)).1).length = 1 ∧
    (collectPages rsTwo).2 = 2 := by
  decide

/-- Claim C5, amended.  `search_subreddit` itself performs no
deduplication and can return two posts with the same id (see the
counterexample); the seen-ids set lives in `main`, whose merge of the
per-term search results does yield a list of pairwise-distinct ids. -/
theorem claim_C5_amended (results : List (List Post)) :
    ((mainMerge results).1.map postId).Nodup := by
  have h := mainMerge_inv results [] [] (by simp) List.nodup_nil
  exact h.1 ▸ h.2

/-- Claim C5, counterexample to the stated claim: a single page carrying
the same id twice makes `search_subreddit` return two entries with the
same id. -/
theorem claim_C5_counterexample :
    ¬ ((search_subreddit rsDup 10).map postId).Nodup := by
  decide

/-- Claim C6, confirmed.  Whenever the loop's accumulated posts number
at least `limit`, the returned sequence is exactly the first `limit`
accumulated posts in ingestion order, so its length is exactly
`limit`. -/
theorem claim_C6_limit (responses : List (Option SearchPage)) (limit : Nat)
    (h : limit ≤ ((collectPages responses).1).length) :
    (search_subreddit responses limit).length = limit ∧
    search_subreddit responses limit = ((collectPages responses).1).take limit := by
  refine ⟨?_, rfl⟩
  rw [search_subreddit, List.length_take]
  omega

set_option maxRecDepth 4000 in
/-- Witness for C6, on the spec's own example: two pages of 100 posts
each and limit 150 give back exactly 150 posts. -/
theorem claim_C6_witness :
    150 ≤ ((collectPages rsHundreds).1).length ∧
    (search_subreddit rsHundreds 150).length = 150 :=
  ⟨by decide, (claim_C6_limit rsHundreds 150 (by decide)).1⟩

/-- Claim C7, confirmed.  At most 3 attempts are ever made; two
transport failures followed by a success return the payload after
exactly 3 attempts (2 retries) with 2 fixed delays; all-failing
transport returns the failure value `None` after exactly 3 attempts. -/
theorem claim_C7_retry {α : Type} (att : Nat → AttemptResult α) :
    (fetch_with_retry att 3).attempts ≤ 3 ∧
    (∀ p, att 0 = .netFail → att 1 = .netFail → att 2 = .success p →
      fetch_with_retry att 3 = ⟨some p, 3, 2⟩) ∧
    ((∀ i, att i = .netFail) → fetch_with_retry att 3 = ⟨none, 3, 3⟩) := by
  refine ⟨fetchFrom_attempts_le att 0 3, ?_, ?_⟩
  · intro p h0 h1 h2
    have e3 : fetchFrom att 2 1 = ⟨some p, 1, 0⟩ :=
      fetchFrom_success_step att 2 0 p h2
    have e2 : fetchFrom att 1 2 =
        ⟨(fetchFrom att 2 1).result, (fetchFrom att 2 1).attempts + 1,
         (fetchFrom att 2 1).sleeps + 1⟩ :=
      fetchFrom_net_step att 1 1 h1
    have e1 : fetchFrom att 0 3 =
        ⟨(fetchFrom att 1 2).result, (fetchFrom att 1 2).attempts + 1,
         (fetchFrom att 1 2).sleeps + 1⟩ :=
      fetchFrom_net_step att 0 2 h0
    show fetchFrom att 0 3 = _
    rw [e1, e2, e3]
  · intro h
    show fetchFrom att 0 3 = _
    exact fetchFrom_allnet att h 3 0

/-- Witness for C7: concrete fail-twice-then-succeed and always-fail
attempt sequences. -/
theorem claim_C7_witness :
    fetch_with_retry attTwoFail 3 = ⟨some 5, 3, 2⟩ ∧
    fetch_with_retry attAllFail 3 = ⟨none, 3, 3⟩ :=
  ⟨(claim_C7_retry attTwoFail).2.1 5 rfl rfl rfl,
   (claim_C7_retry attAllFail).2.2 (fun _ => rfl)⟩

/-- Claim C8, amended.  A decode failure does abort the attempt loop
immediately — one attempt, no retry, no delay — but the function then
returns the same value `None` that exhausted transport retries return,
so the two failure kinds are not distinguishable in the result (they
differ only in what is logged). -/
theorem claim_C8_amended {α : Type} (att att2 : Nat → AttemptResult α)
    (h : att 0 = .decodeFail) (h2 : ∀ i, att2 i = .netFail) :
    fetch_with_retry att 3 = ⟨none, 1, 0⟩ ∧
    (fetch_with_retry att 3).result = (fetch_with_retry att2 3).result := by
  have e : fetchFrom att 0 3 = ⟨none, 1, 0⟩ := fetchFrom_decode_step att 0 2 h
  refine ⟨e, ?_⟩
  show (fetchFrom att 0 3).result = (fetchFrom att2 0 3).result
  rw [e, fetchFrom_allnet att2 h2 3 0]

/-- Witness for C8: a first-attempt decode failure against an
always-failing transport. -/
theorem claim_C8_witness :
    fetch_with_retry attDecode 3 = ⟨none, 1, 0⟩ ∧
    (fetch_with_retry attDecode 3).result = (fetch_with_retry attAllFail 3).result :=
  claim_C8_amended attDecode attAllFail rfl (fun _ => rfl)

/-- Claim C8, counterexample to the stated claim: the value returned
after a decode failure equals the value returned after exhausting
transport retries (both are `None`), so the decode-kind failure is not
distinguishable from the network-kind one in the result. -/
theorem claim_C8_counterexample :
    (fetch_with_retry attDecode 3).result = (fetch_with_retry attAllFail 3).result ∧
    (fetch_with_retry attDecode 3).result = none := by
  decide

/-- Claim C9, confirmed.  Every extracted post record carries exactly
the ten keys, in the dict literal's order; hence any two records share
an identical key set; absent input fields receive the documented
defaults (shown on the all-absent raw record: empty strings, zeros, the
formatted zero timestamp, and the bare base address as url). -/
theorem claim_C9_keys :
    (∀ p : RawPost, (extract_post_data p).map Prod.fst =
      ["title", "author", "score", "num_comments", "created_utc",
       "created_date", "selftext", "url", "id", "link_flair_text"]) ∧
    (∀ p q : RawPost,
      (extract_post_data p).map Prod.fst = (extract_post_data q).map Prod.fst) ∧
    extract_post_data ⟨none, none, none, none, none, none, none, none, none⟩ =
      [("title", .s ""), ("author", .s ""), ("score", .i 0),
       ("num_comments", .i 0), ("created_utc", .i 0),
       ("created_date", .s (formatTimestamp 0)), ("selftext", .s ""),
       ("url", .s BASE_URL), ("id", .s ""), ("link_flair_text", .s "")] :=
  ⟨fun _ => rfl, fun _ _ => rfl, rfl⟩

/-- Claim C10, confirmed.  `get_post_comments` returns the failure
marker on a fetch exception, the bare empty list when the decoded array
has fewer than two elements, and otherwise either the failure marker
(extraction raised) or a dict with exactly the keys post_id, post_info,
comments. -/
theorem claim_C10_shape (pid : String) (resp : Option (List ThreadPart)) :
    (resp = none → get_post_comments pid resp = .failure) ∧
    (∀ data, resp = some data → data.length < 2 →
      get_post_comments pid resp = .emptyList) ∧
    (∀ data, resp = some data → 2 ≤ data.length →
      get_post_comments pid resp = .failure ∨
      ∃ fields, get_post_comments pid resp = .dict fields ∧
        fields.map Prod.fst = ["post_id", "post_info", "comments"]) := by
  refine ⟨?_, ?_, ?_⟩
  · intro h
    rw [h]
    rfl
  · intro data h hlen
    rw [h]
    simp [get_post_comments, hlen]
  · intro data h hlen
    subst h
    match data with
    | [] => simp at hlen
    | [x] => simp at hlen
    | p0 :: p1 :: rest =>
      have hnl : ¬ (p0 :: p1 :: rest).length < 2 := by
        simp
      simp only [get_post_comments, if_neg hnl]
      split
      · exact Or.inl rfl
      · split
        · exact Or.inr ⟨_, rfl, rfl⟩
        · exact Or.inl rfl

/-- Witness for C10: a well-formed two-part thread response yields the
dict shape (or the failure marker), with exactly the three keys. -/
theorem claim_C10_witness :
    get_post_comments "x" respOk = .failure ∨
    ∃ fields, get_post_comments "x" respOk = .dict fields ∧
      fields.map Prod.fst = ["post_id", "post_info", "comments"] :=
  (claim_C10_shape "x" respOk).2.2 [partPost, partComments] rfl (by decide)

end Ausjdocs
